import Mathlib

/-!
Verification development for the ccproxy request-routing and relay engine
(`src/ccproxy.py`). The Python source is shallowly embedded: Python dicts become
association lists with in-place-update semantics (`dictInsert`), JSON values
become the inductive `JVal`, network and filesystem effects become explicit
outcome parameters, and Python truthiness of strings/lists is modelled by
non-emptiness. All definitions are translated from the source file; the
theorems at the end settle the specification claims against them.
-/

namespace Ccproxy

/-- JSON values as produced by `json.loads`. Objects keep field order. -/
inductive JVal where
  | str (s : String)
  | num (n : Int)
  | bool (b : Bool)
  | null
  | arr (xs : List JVal)
  | obj (fields : List (String × JVal))

/-- Python truthiness of a JSON value (`if m.get("id")`). -/
def jTruthy : JVal → Bool
  | .str s => s != ""
  | .num n => n != 0
  | .bool b => b
  | .null => false
  | .arr xs => !xs.isEmpty
  | .obj fs => !fs.isEmpty

/-- Lookup in a JSON object field list, first match wins (Python dict lookup;
dict keys are unique so the first match is the only one). -/
def jLookup (fs : List (String × JVal)) (k : String) : Option JVal :=
  (fs.find? (fun kv => kv.1 == k)).map (fun kv => kv.2)

/-- Python `d[k] = v` on an insertion-ordered dict: if the key exists the value
is updated in place, otherwise the pair is appended at the end. -/
def dictInsert {α : Type} (d : List (String × α)) (k : String) (v : α) : List (String × α) :=
  match d with
  | [] => [(k, v)]
  | (k', v') :: rest => if k' = k then (k, v) :: rest else (k', v') :: dictInsert rest k v

/-- Python `d.get(k)` on a dict modelled as an association list. -/
def dictFind {α : Type} (d : List (String × α)) (k : String) : Option α :=
  (d.find? (fun kv => kv.1 == k)).map (fun kv => kv.2)

/-- Keys of a dict, in order. -/
def dkeys {α : Type} (d : List (String × α)) : List String :=
  d.map (fun kv => kv.1)

/-- The fixed hop-by-hop header set `HOP_HEADERS` of ccproxy.py. -/
def HOP_HEADERS : List String :=
  ["connection", "keep-alive", "proxy-authenticate", "proxy-authorization",
   "te", "trailers", "transfer-encoding", "upgrade", "host",
   "content-length", "accept-encoding"]

/-- The client auth headers stripped in override mode (`AUTH_HEADERS`). -/
def AUTH_HEADERS : List String :=
  ["authorization", "x-api-key", "anthropic-auth-token"]

/-- Browser-identifying headers stripped during header-override application. -/
def BROWSER_HEADERS : List String :=
  ["http-referer", "referer", "x-title", "origin", "priority"]

/-- Character-list prefix test (executable replacement for library functions
that do not reduce in the kernel). -/
def isPrefixL : List Char → List Char → Bool
  | [], _ => true
  | _ :: _, [] => false
  | a :: as, b :: bs => a == b && isPrefixL as bs

/-- Occurrence test of `pat` inside `hay` at any position. -/
def hasSubL (pat : List Char) : List Char → Bool
  | [] => pat.isEmpty
  | c :: t => isPrefixL pat (c :: t) || hasSubL pat t

/-- Python substring test `pat in s`. -/
def containsSubstr (s pat : String) : Bool :=
  hasSubL pat.data s.data

/-- Fuelled replace-all on character lists; fuel strictly exceeds the input
length so it never runs out on the wrapper's call (each step consumes at least
one character because the empty pattern is handled by the wrapper). -/
def replAux (pat rep : List Char) : Nat → List Char → List Char
  | 0, hay => hay
  | _ + 1, [] => []
  | fuel + 1, c :: t =>
    if isPrefixL pat (c :: t) then rep ++ replAux pat rep fuel ((c :: t).drop pat.length)
    else c :: replAux pat rep fuel t

/-- Python `s.replace(pat, rep)` for a non-empty `pat` (all the patterns the
program replaces are non-empty literals). -/
def replaceS (s pat rep : String) : String :=
  if pat.data.isEmpty then s
  else String.mk (replAux pat.data rep.data (s.data.length + 1) s.data)

/-- ASCII lowercasing of a string (Python `.lower()` on the header names and
mode strings the program lowercases, which are ASCII). -/
def sLower (s : String) : String :=
  String.mk (s.data.map Char.toLower)

/-- Python `s.startswith(pat)`. -/
def strStarts (s pat : String) : Bool :=
  isPrefixL pat.data s.data

/-- Python `s.strip()`: remove leading and trailing whitespace. -/
def sTrim (s : String) : String :=
  String.mk (((s.data.dropWhile Char.isWhitespace).reverse.dropWhile Char.isWhitespace).reverse)

/-- Python `s[n:]`. -/
def sDrop (s : String) (n : Nat) : String :=
  String.mk (s.data.drop n)

/-- Python `s.rstrip("/")`. -/
def rstripSlash (s : String) : String :=
  String.mk ((s.data.reverse.dropWhile (fun c => c == '/')).reverse)

/-- The passthrough-mode value substitution of `build_headers`/`build_url`:
a value containing the configured client API key as a substring is replaced
wholesale by the provider token (`if self.client_apikey and self.client_apikey
in v: ... = self.provider_token`). -/
def substAuthValue (apikey token v : String) : String :=
  if apikey != "" && containsSubstr v apikey then token else v

/-- Opening brace character (written by code point to keep braces out of
string literals). -/
def obr : Char := Char.ofNat 123

/-- Closing brace character. -/
def cbr : Char := Char.ofNat 125

/-- Fuelled core of `pyFormat`; fuel strictly exceeds the character count so it
never runs out on the wrapper's call. -/
def pyFmtAux (tok : String) : Nat → List Char → Option (List Char)
  | 0, _ => none
  | _ + 1, [] => some []
  | fuel + 1, c :: rest =>
    if c = obr then
      match rest with
      | [] => none
      | c2 :: rest2 =>
        if c2 = obr then
          (pyFmtAux tok fuel rest2).map (fun cs => obr :: cs)
        else
          let field := (c2 :: rest2).takeWhile (fun ch => ch ≠ cbr)
          match (c2 :: rest2).dropWhile (fun ch => ch ≠ cbr) with
          | [] => none
          | _ :: rem2 =>
            if field = "token".data then
              (pyFmtAux tok fuel rem2).map (fun cs => tok.data ++ cs)
            else none
    else if c = cbr then
      match rest with
      | [] => none
      | c2 :: rest2 =>
        if c2 = cbr then (pyFmtAux tok fuel rest2).map (fun cs => cbr :: cs)
        else none
    else
      (pyFmtAux tok fuel rest).map (fun cs => c :: cs)

/-- Model of Python `template.format(token=tok)`: substitutes `tok` for each
token placeholder, doubles braces unescape, and any other replacement field,
stray brace or unclosed field raises (returns `none`, modelling the KeyError /
ValueError `str.format` raises there). Format specs on the token field are not
used by the program and are modelled as errors as well. -/
def pyFormat (tmpl tok : String) : Option String :=
  (pyFmtAux tok (tmpl.data.length + 1) tmpl.data).map (fun cs => String.mk cs)

/-- One provider profile entry from the `Providers` config list. Absent keys
are modelled by the empty string (Python `.get(..., "")` / falsiness). -/
structure Provider where
  name : String := ""
  api_base_url : String := ""
  token : String := ""
  api_key : String := ""
  token_in : String := ""
  token_param : String := ""
  token_header : String := ""
  token_header_format : String := ""
  header_override : String := ""

/-- The shared override object stored in `proxy_state.json` under
`global_override`. Query strings are modelled at the parsed pair level
(`urllib.parse.parse_qsl` round trip). -/
structure Override where
  token_in : String := ""
  token_param : String := ""
  token_header : String := ""
  token_header_format : String := ""
  query_params : List (String × String) := []
  header_override : String := ""
  request_override : String := ""
  request_inject : List (String × JVal) := []

/-- `provider.get("token") or provider.get("api_key") or ""`. -/
def effToken (p : Provider) : String :=
  if p.token != "" then p.token else p.api_key

/-- `override.get("token_in") or provider.get("token_in", "")`, lowercased when
truthy (ProxyRequest.__init__). -/
def effTokenIn (p : Provider) (ov : Override) : String :=
  sLower (if ov.token_in != "" then ov.token_in else p.token_in)

/-- `override.get("token_header") or provider.get("token_header", "Authorization")`. -/
def effTokenHeader (p : Provider) (ov : Override) : String :=
  if ov.token_header != "" then ov.token_header
  else if p.token_header != "" then p.token_header
  else "Authorization"

/-- `override.get("token_header_format") or provider.get("token_header_format",
"Bearer {token}")`. -/
def effTokenHeaderFormat (p : Provider) (ov : Override) : String :=
  if ov.token_header_format != "" then ov.token_header_format
  else if p.token_header_format != "" then p.token_header_format
  else "Bearer " ++ String.mk [obr] ++ "token" ++ String.mk [cbr]

/-- The header-override set that `build_headers` applies: named by
`override.get("header_override") or provider.get("header_override", "")`,
looked up in the configured `HeaderOverrides`; empty when the name is empty,
unknown, or maps to an empty set. -/
def effHOHeaders (p : Provider) (ov : Override)
    (hoSets : List (String × List (String × String))) : List (String × String) :=
  let ho := if ov.header_override != "" then ov.header_override else p.header_override
  if ho != "" then (dictFind hoSets ho).getD [] else []

/-- Header-override application (tail of `ProxyRequest.build_headers`): when a
non-empty override set is configured, drop working headers whose lowercased
name collides with the set, drop browser-identifying headers, then apply the
set entries verbatim (`headers.update`). -/
def applyHeaderOverride (p : Provider) (ov : Override)
    (hoSets : List (String × List (String × String)))
    (headers : List (String × String)) : List (String × String) :=
  let ovHs := effHOHeaders p ov hoSets
  if !ovHs.isEmpty then
    let keysLower := ovHs.map (fun kv => sLower kv.1)
    let h1 := headers.filter (fun kv => !keysLower.contains (sLower kv.1))
    let h2 := h1.filter (fun kv =>
      !(BROWSER_HEADERS.contains (sLower kv.1)
        || strStarts (sLower kv.1) "sec-ch-"
        || strStarts (sLower kv.1) "sec-fetch-"))
    ovHs.foldl (fun d kv => dictInsert d kv.1 kv.2) h2
  else headers

/-- Passthrough-mode header loop of `build_headers`: copy client headers minus
hop-by-hop ones, substituting the provider token into values containing the
client API key. -/
def passthroughBase (apikey ptoken : String)
    (clientHeaders : List (String × String)) : List (String × String) :=
  clientHeaders.foldl (fun d kv =>
    if !HOP_HEADERS.contains (sLower kv.1) then
      dictInsert d kv.1 (substAuthValue apikey ptoken kv.2)
    else d) []

/-- Override-mode header comprehension of `build_headers`: copy client headers
minus hop-by-hop and client auth headers. -/
def overrideBase (clientHeaders : List (String × String)) : List (String × String) :=
  clientHeaders.foldl (fun d kv =>
    if !HOP_HEADERS.contains (sLower kv.1) && !AUTH_HEADERS.contains (sLower kv.1) then
      dictInsert d kv.1 kv.2
    else d) []

/-- `ProxyRequest.build_headers`. Passthrough mode copies client headers minus
hop-by-hop ones, substituting the provider token into values containing the
client API key; override mode drops hop-by-hop and client auth headers and, for
`token_in` header/both, injects the formatted credential. A header-format
template that `str.format` rejects raises out of build_headers (`.error`). -/
def build_headers (p : Provider) (ov : Override)
    (clientHeaders : List (String × String))
    (hoSets : List (String × List (String × String)))
    (apikey : String) : Except Unit (List (String × String)) :=
  let tin := effTokenIn p ov
  if tin == "" then
    .ok (applyHeaderOverride p ov hoSets (passthroughBase apikey (effToken p) clientHeaders))
  else
    let hs := overrideBase clientHeaders
    if tin == "header" || tin == "both" then
      match pyFormat (effTokenHeaderFormat p ov) (effToken p) with
      | none => .error ()
      | some fv => .ok (applyHeaderOverride p ov hoSets (dictInsert hs (effTokenHeader p ov) fv))
    else .ok (applyHeaderOverride p ov hoSets hs)

/-- `ProxyRequest.build_url`, restricted to the query pairs appended after the
base URL's own query (`merge_query` always appends; `append_token` appends the
credential pair last and is a no-op for an empty token). -/
def build_url_query (p : Provider) (ov : Override)
    (clientQuery : List (String × String)) (apikey tokenParamCfg : String) :
    List (String × String) :=
  let tin := effTokenIn p ov
  if tin == "" then
    clientQuery.map (fun kv => (kv.1, substAuthValue apikey (effToken p) kv.2))
  else
    let filtered := clientQuery.filter (fun kv =>
      !(["token", "key", "api_key", "apikey"].contains (sLower kv.1)))
    let q1 := filtered ++ ov.query_params
    if tin == "query" || tin == "both" then
      let tp := if ov.token_param != "" then ov.token_param
                else if p.token_param != "" then p.token_param
                else tokenParamCfg
      if effToken p != "" then q1 ++ [(tp, effToken p)] else q1
    else q1

/-- The client body as seen by `build_body`: either bytes that `json.loads`
rejects (`raw`), or bytes that parse to a JSON value. Non-object JSON values
make the injection code raise (e.g. `.items()` on a list) and fall back, which
the `build_body` match mirrors. -/
inductive ClientBody where
  | raw (s : String)
  | json (v : JVal)

/-- Injection-map resolution at the head of `ProxyRequest.build_body`: a named
`request_override` that resolves to a non-empty set wins, else a non-empty
inline `request_inject`; the empty list means no injection. -/
def resolve_inject (ov : Override)
    (reqOv : List (String × List (String × JVal))) : List (String × JVal) :=
  let fromName := if ov.request_override != "" then (dictFind reqOv ov.request_override).getD []
                  else []
  if !fromName.isEmpty then fromName else ov.request_inject

/-- Field reordering of `build_body`: original `model` and `messages` first,
then `system`/`tools`/`metadata` (injected only when absent from the original),
then the remaining original fields in order. -/
def orderedFields (inj fields : List (String × JVal)) : List (String × JVal) :=
  let o1 := match jLookup fields "model" with
    | some v => [("model", v)]
    | none => []
  let o2 := match jLookup fields "messages" with
    | some v => o1 ++ [("messages", v)]
    | none => o1
  let o3 := ["system", "tools", "metadata"].foldl (fun acc f =>
    if (jLookup inj f).isSome && !(jLookup fields f).isSome then
      match jLookup inj f with
      | some v => acc ++ [(f, v)]
      | none => acc
    else
      match jLookup fields f with
      | some v => acc ++ [(f, v)]
      | none => acc) o2
  fields.foldl (fun acc kv =>
    if (jLookup acc kv.1).isSome then acc else acc ++ [kv]) o3

/-- `ProxyRequest.build_body`: with a resolved injection map and a JSON-object
body, rebuild the body with `orderedFields`; in every other case (no injection
configured, body not JSON, body JSON but not an object) return the original
bytes - the `except Exception: pass` makes every parse/processing failure fall
through to `return self.client_body`. -/
def build_body (ov : Override) (reqOv : List (String × List (String × JVal)))
    (body : ClientBody) : ClientBody :=
  let inj := resolve_inject ov reqOv
  if inj.isEmpty then body
  else
    match body with
    | .json (.obj fields) => .json (.obj (orderedFields inj fields))
    | b => b

/-- Process configuration read from the config file (keys the core uses). -/
structure Config where
  providers : List Provider := []
  errorThreshold : Nat := 3
  apikey : String := ""
  tokenParam : String := "token"

/-- The persisted user state (`proxy_state.json` content): selected provider
name, `selection_required` flag, and the shared override object. -/
structure PState where
  selected_provider : String := ""
  selection_required : Bool := false
  global_override : Override := {}

/-- `ProxyState`: config, runtime provider list, persisted user state, the
on-disk copy of it, per-provider error counters and the error threshold
captured at construction. -/
structure ProxyState where
  config : Config
  runtimeProviders : List Provider
  pstate : PState
  persisted : Option PState
  errorCounts : List (String × Nat)
  errorThreshold : Nat

/-- `ProxyState.__init__`: deep-copies the provider list into runtime state,
loads the persisted state, starts with empty error counters and captures
`ERROR_THRESHOLD` (default 3) once. -/
def initState (cfg : Config) (disk : PState) : ProxyState :=
  { config := cfg
    runtimeProviders := cfg.providers
    pstate := disk
    persisted := some disk
    errorCounts := []
    errorThreshold := cfg.errorThreshold }

/-- `ProxyState.save_state`: write the current user state to disk (write
failures are logged and swallowed in the source; the model records the content
handed to the successful write). -/
def save_state (s : ProxyState) : ProxyState :=
  { s with persisted := some s.pstate }

/-- `ProxyState.get_selected_provider`: none while `selection_required` is set;
otherwise the provider matching the stored name, else the first provider, else
none for an empty list. -/
def get_selected_provider (s : ProxyState) : Option Provider :=
  if s.pstate.selection_required then none
  else
    let sel := s.pstate.selected_provider
    if sel != "" then
      match s.runtimeProviders.find? (fun p => p.name == sel) with
      | some p => some p
      | none => s.runtimeProviders.head?
    else s.runtimeProviders.head?

/-- `ProxyState.set_selected_provider`: succeeds only for a name present in the
runtime provider list; then stores it, clears `selection_required` and
persists. -/
def set_selected_provider (s : ProxyState) (name : String) : ProxyState × Bool :=
  if s.runtimeProviders.any (fun p => p.name == name) then
    (save_state { s with pstate :=
      { s.pstate with selected_provider := name, selection_required := false } }, true)
  else (s, false)

/-- Outcome of re-reading the config file inside `reload_config`: a parsed
config, an `OSError` (caught), or a `json.JSONDecodeError` (not caught). -/
inductive ReloadOutcome where
  | readOk (cfg : Config)
  | readOSError
  | readParseError

/-- `ProxyState.reload_config`. The returned flag is true when an exception
escapes the method: the `try` only catches `OSError`, so a file that opens but
fails to parse raises `json.JSONDecodeError` out of `reload_config`. On
success the provider list is replaced; the stored selection is kept when its
name still exists, otherwise the first new provider is selected and persisted
(nothing is done for an empty new list). -/
def reload_config (s : ProxyState) (r : ReloadOutcome) : ProxyState × Bool :=
  match r with
  | .readOSError => (s, false)
  | .readParseError => (s, true)
  | .readOk cfg =>
    let s1 := { s with config := cfg, runtimeProviders := cfg.providers }
    let sel := s1.pstate.selected_provider
    if sel != "" && s1.runtimeProviders.any (fun p => p.name == sel) then (s1, false)
    else
      match s1.runtimeProviders with
      | [] => (s1, false)
      | p :: _ => (save_state { s1 with pstate :=
          { s1.pstate with selected_provider := p.name } }, false)

/-- `ProxyState.get_error_threshold`: the value captured at construction
(reload does not refresh it). -/
def get_error_threshold (s : ProxyState) : Nat :=
  s.errorThreshold

/-- Current consecutive-error count for a provider, defaulting to zero for
unseen names (`self._error_counts.get(provider_name, 0)`). -/
def getErrorCount (s : ProxyState) (name : String) : Nat :=
  ((s.errorCounts.find? (fun kv => kv.1 == name)).map (fun kv => kv.2)).getD 0

/-- `ProxyState.increment_error_count`: bump and return the provider's count. -/
def increment_error_count (s : ProxyState) (name : String) : ProxyState × Nat :=
  let c := getErrorCount s name + 1
  ({ s with errorCounts := dictInsert s.errorCounts name c }, c)

/-- `ProxyState.reset_error_count`: zero the provider's count. -/
def reset_error_count (s : ProxyState) (name : String) : ProxyState :=
  { s with errorCounts := dictInsert s.errorCounts name 0 }

/-- What `ProxyHandler._stream_response` does with one upstream response:
either nothing is sent to the client (the retry-inducing drop) or the given
status/headers/chunks are relayed. -/
inductive StreamResult where
  | dropped
  | relayed (status : Nat) (headers : List (String × String)) (chunks : List String)
  deriving DecidableEq

/-- Hop-by-hop header stripping applied to the relayed upstream headers. -/
def stripHop (hs : List (String × String)) : List (String × String) :=
  hs.filter (fun kv => !HOP_HEADERS.contains (sLower kv.1))

/-- `ProxyHandler._stream_response` (decision core): a status other than 200
increments the provider's error counter and, below the captured threshold,
drops the connection; at or above it the upstream status, non-hop-by-hop
headers and body chunks are relayed. A 200 resets the counter and relays.
Empty chunks are skipped (`if chunk:`). -/
def stream_response (status : Nat) (respHeaders : List (String × String))
    (chunks : List String) (providerName : String) (s : ProxyState) :
    StreamResult × ProxyState :=
  if status != 200 then
    let sc := increment_error_count s providerName
    if sc.2 < sc.1.errorThreshold then (.dropped, sc.1)
    else (.relayed status (stripHop respHeaders) (chunks.filter (fun c => c != "")), sc.1)
  else
    (.relayed status (stripHop respHeaders) (chunks.filter (fun c => c != "")),
     reset_error_count s providerName)

/-- `extract_base_url`: strip a known chat-completions suffix from the
provider base URL, else trim trailing slashes. -/
def extract_base_url (u : String) : String :=
  if containsSubstr u "/anthropic/v1/messages" then replaceS u "/anthropic/v1/messages" ""
  else if containsSubstr u "/v1/chat/completions" then replaceS u "/v1/chat/completions" ""
  else if containsSubstr u "/v1/messages" then replaceS u "/v1/messages" ""
  else rstripSlash u

/-- Outcome of the `requests.get` probe inside `fetch_models`: a 2xx response
with parsed JSON, a 2xx response whose body is not JSON, a non-2xx status
(`raise_for_status`), or a network/timeout failure. All of these arise inside
the `try`. -/
inductive FetchOutcome where
  | ok (data : JVal)
  | jsonErr (msg : String)
  | httpErr (msg : String)
  | netErr (msg : String)

/-- `[m.get("id") for m in ...]` over the `data` list: collects truthy `id`
values; any non-dict element raises `AttributeError` (caught by the caller's
`except`). -/
def extractList : List JVal → Except String (List JVal)
  | [] => .ok []
  | .obj mf :: rest =>
    match extractList rest with
    | .error e => .error e
    | .ok tail =>
      match jLookup mf "id" with
      | some v => if jTruthy v then .ok (v :: tail) else .ok tail
      | none => .ok tail
  | _ :: _ => .error "AttributeError"

/-- `data.get("data", [])` plus the comprehension over it: a missing `data`
key yields the empty default; a non-list value either iterates emptily (empty
dict / empty string) or raises while iterating. A non-dict response raises
`AttributeError` at `.get`. All such raises are caught by `fetch_models`. -/
def extractModels : JVal → Except String (List JVal)
  | .obj fs =>
    match jLookup fs "data" with
    | none => .ok []
    | some (.arr ms) => extractList ms
    | some (.obj []) => .ok []
    | some (.obj (_ :: _)) => .error "AttributeError"
    | some (.str s) => if s == "" then .ok [] else .error "AttributeError"
    | some _ => .error "TypeError"
  | _ => .error "AttributeError"

/-- The body of the `try` in `fetch_models`, given the probe outcome: a
non-empty extracted list is `(models, none)`; everything else, including an
empty list, is `(none, reason)`. -/
def fetchRespond : FetchOutcome → Option (List JVal) × Option String
  | .ok data =>
    match extractModels data with
    | .error e => (none, some e)
    | .ok ms => if ms.isEmpty then (none, some "empty model list") else (some ms, none)
  | .jsonErr m => (none, some m)
  | .httpErr m => (none, some m)
  | .netErr m => (none, some m)

/-- The credential-placement mode used by `fetch_models`; the `token_in`
default here is `header` (`provider.get("token_in", "header")`), unlike the
transformer. -/
def fetchTokenIn (p : Provider) (ov : Override) : String :=
  sLower (if ov.token_in != "" then ov.token_in
          else if p.token_in != "" then p.token_in
          else "header")

/-- The models-listing URL probed by `fetch_models`. -/
def fetchUrl (p : Provider) (ov : Override) (tokenParam : String) : String :=
  let url0 := extract_base_url p.api_base_url ++ "/v1/models"
  if (fetchTokenIn p ov == "query" || fetchTokenIn p ov == "both") && effToken p != "" then
    url0 ++ "?" ++ tokenParam ++ "=" ++ effToken p
  else url0

/-- `fetch_models`. The URL and auth-header construction precede the `try`:
formatting the header template happens outside it, so a template rejected by
`str.format` raises out of the function (`.error ()`); every other failure is
converted to a `(none, reason)` pair. -/
def fetch_models (p : Provider) (tokenParam : String) (ov : Override)
    (outcome : FetchOutcome) : Except Unit (Option (List JVal) × Option String) :=
  if p.api_base_url == "" then .ok (none, some "missing api_base_url")
  else
    let _url := fetchUrl p ov tokenParam
    if effToken p != "" && (fetchTokenIn p ov == "header" || fetchTokenIn p ov == "both") then
      match pyFormat (effTokenHeaderFormat p ov) (effToken p) with
      | none => .error ()
      | some _fv => .ok (fetchRespond outcome)
    else .ok (fetchRespond outcome)

/-- True when an exception escaped (the `.error` case of an `Except`). -/
def isExn {ε α : Type} : Except ε α → Bool
  | .error _ => true
  | .ok _ => false

/-- `ProxyHandler._extract_client_token`: lowercased header map lookup of
`x-api-key`, then a bearer `authorization` header, then
`anthropic-auth-token`, then the first non-blank `token`/`key`/`api_key` query
value (`parse_qs` drops blank values). -/
def extract_client_token (clientHeaders : List (String × String))
    (queryPairs : List (String × String)) : String :=
  let hm := clientHeaders.foldl (fun d kv => dictInsert d (sLower kv.1) kv.2) []
  let tok := (dictFind hm "x-api-key").getD ""
  if tok != "" then sTrim tok
  else
    let auth := (dictFind hm "authorization").getD ""
    if strStarts (sLower auth) "bearer " then sTrim (sDrop auth 7)
    else
      let tok2 := (dictFind hm "anthropic-auth-token").getD ""
      if tok2 != "" then sTrim tok2
      else
        let firstOf := fun (key : String) =>
          (queryPairs.filter (fun kv => kv.1 == key && kv.2 != "")).head?
        match firstOf "token" with
        | some kv => sTrim kv.2
        | none =>
          match firstOf "key" with
          | some kv => sTrim kv.2
          | none =>
            match firstOf "api_key" with
            | some kv => sTrim kv.2
            | none => ""

/-- `ProxyHandler._is_authorized`: true when no client API key is configured,
else the extracted client token must equal it. -/
def is_authorized (apikey : String) (clientHeaders queryPairs : List (String × String)) :
    Bool :=
  apikey == "" || extract_client_token clientHeaders queryPairs == apikey

/-- The client-visible outcome of the `_proxy_messages` dispatch prefix:
a structured JSON error response, or the request is forwarded with the chosen
provider and the shared override. -/
inductive ProxyOutcome where
  | jsonErr (status : Nat) (error : String)
  | forward (p : Provider) (ov : Override)

/-- `ProxyHandler._proxy_messages` (dispatch prefix): no selected provider
gives 503 before any credential check; an unauthorized request against a
selected provider gives 401; otherwise the request proceeds to forwarding. -/
def proxy_messages (s : ProxyState) (clientHeaders queryPairs : List (String × String)) :
    ProxyOutcome :=
  match get_selected_provider s with
  | none => .jsonErr 503 "no_provider_selected"
  | some p =>
    if !is_authorized s.config.apikey clientHeaders queryPairs then
      .jsonErr 401 "unauthorized"
    else .forward p s.pstate.global_override

/-! ### Dictionary lemmas -/

theorem mem_dictInsert {α : Type} {kv : String × α} {d : List (String × α)} {k : String}
    {v : α} (h : kv ∈ dictInsert d k v) : kv = (k, v) ∨ kv ∈ d := by
  induction d with
  | nil => simpa [dictInsert] using h
  | cons hd tl ih =>
    rw [dictInsert] at h
    split at h
    · rcases List.mem_cons.mp h with h1 | h1
      · exact Or.inl h1
      · exact Or.inr (List.mem_cons_of_mem _ h1)
    · rcases List.mem_cons.mp h with h1 | h1
      · exact Or.inr (h1 ▸ List.mem_cons_self _ _)
      · rcases ih h1 with h2 | h2
        · exact Or.inl h2
        · exact Or.inr (List.mem_cons_of_mem _ h2)

theorem self_mem_dictInsert {α : Type} (d : List (String × α)) (k : String) (v : α) :
    (k, v) ∈ dictInsert d k v := by
  induction d with
  | nil => simp [dictInsert]
  | cons hd tl ih =>
    rw [dictInsert]
    split
    · exact List.mem_cons_self _ _
    · exact List.mem_cons_of_mem _ ih

theorem find?_dictInsert {α : Type} (d : List (String × α)) (k : String) (v : α) :
    (dictInsert d k v).find? (fun kv => kv.1 == k) = some (k, v) := by
  induction d with
  | nil => simp [dictInsert]
  | cons hd tl ih =>
    rw [dictInsert]
    split
    · simp
    · rename_i hne
      rw [List.find?_cons]
      have : (hd.1 == k) = false := by
        simpa using hne
      simp [this, ih]

theorem mem_dkeys_dictInsert {α : Type} {a : String} {d : List (String × α)} {k : String}
    {v : α} (h : a ∈ dkeys (dictInsert d k v)) : a = k ∨ a ∈ dkeys d := by
  induction d with
  | nil => simpa [dictInsert, dkeys] using h
  | cons hd tl ih =>
    rw [dictInsert] at h
    split at h
    · simp only [dkeys, List.map_cons] at h ⊢
      rcases List.mem_cons.mp h with h1 | h1
      · exact Or.inl h1
      · exact Or.inr (List.mem_cons_of_mem _ h1)
    · simp only [dkeys, List.map_cons] at h ⊢
      rcases List.mem_cons.mp h with h1 | h1
      · exact Or.inr (h1 ▸ List.mem_cons_self _ _)
      · rcases ih h1 with h2 | h2
        · exact Or.inl h2
        · exact Or.inr (List.mem_cons_of_mem _ h2)

theorem nodup_dictInsert {α : Type} {d : List (String × α)} (h : (dkeys d).Nodup)
    (k : String) (v : α) : (dkeys (dictInsert d k v)).Nodup := by
  induction d with
  | nil => simp [dictInsert, dkeys]
  | cons hd tl ih =>
    rw [dictInsert]
    split
    · rename_i heq
      simp only [dkeys, List.map_cons, List.nodup_cons] at h ⊢
      exact ⟨heq ▸ h.1, h.2⟩
    · rename_i hne
      simp only [dkeys, List.map_cons, List.nodup_cons] at h ⊢
      refine ⟨fun hmem => ?_, ih h.2⟩
      rcases mem_dkeys_dictInsert hmem with h1 | h1
      · exact hne h1
      · exact h.1 h1

theorem filter_keyEq_nil {α : Type} {d : List (String × α)} {k : String}
    (h : k ∉ dkeys d) : d.filter (fun kv => kv.1 == k) = [] := by
  induction d with
  | nil => simp
  | cons hd tl ih =>
    simp only [dkeys, List.map_cons, List.mem_cons, not_or] at h
    have : (hd.1 == k) = false := by
      simpa using fun he => h.1 he.symm
    simp [List.filter_cons, this, ih (by simpa [dkeys] using h.2)]

theorem filter_dictInsert_self {α : Type} {d : List (String × α)} (h : (dkeys d).Nodup)
    (k : String) (v : α) :
    (dictInsert d k v).filter (fun kv => kv.1 == k) = [(k, v)] := by
  induction d with
  | nil => simp [dictInsert]
  | cons hd tl ih =>
    rw [dictInsert]
    split
    · rename_i heq
      simp only [dkeys, List.map_cons, List.nodup_cons] at h
      have : k ∉ dkeys tl := heq ▸ h.1
      simp [List.filter_cons, filter_keyEq_nil this]
    · rename_i hne
      simp only [dkeys, List.map_cons, List.nodup_cons] at h
      have : (hd.1 == k) = false := by simpa using hne
      simp [List.filter_cons, this, ih h.2]

theorem mem_foldl_guardInsert {α : Type} (pass : String × String → Bool)
    (f : String × String → α) :
    ∀ (l : List (String × String)) (d0 : List (String × α)) (kv : String × α),
      kv ∈ l.foldl (fun d x => if pass x then dictInsert d x.1 (f x) else d) d0 →
      kv ∈ d0 ∨ ∃ x, x ∈ l ∧ pass x = true ∧ kv = (x.1, f x) := by
  intro l
  induction l with
  | nil => intro d0 kv h; exact Or.inl h
  | cons x xs ih =>
    intro d0 kv h
    rw [List.foldl_cons] at h
    rcases ih _ kv h with h1 | ⟨y, hy1, hy2, hy3⟩
    · by_cases hp : pass x = true
      · rw [if_pos hp] at h1
        rcases mem_dictInsert h1 with h2 | h2
        · exact Or.inr ⟨x, List.mem_cons_self _ _, hp, h2⟩
        · exact Or.inl h2
      · rw [if_neg hp] at h1
        exact Or.inl h1
    · exact Or.inr ⟨y, List.mem_cons_of_mem _ hy1, hy2, hy3⟩

theorem mem_foldl_insert {α : Type} :
    ∀ (l : List (String × α)) (d0 : List (String × α)) (kv : String × α),
      kv ∈ l.foldl (fun d x => dictInsert d x.1 x.2) d0 → kv ∈ d0 ∨ kv ∈ l := by
  intro l
  induction l with
  | nil => intro d0 kv h; exact Or.inl h
  | cons x xs ih =>
    intro d0 kv h
    rw [List.foldl_cons] at h
    rcases ih _ kv h with h1 | h1
    · rcases mem_dictInsert h1 with h2 | h2
      · exact Or.inr (by simp [h2])
      · exact Or.inl h2
    · exact Or.inr (List.mem_cons_of_mem _ h1)

theorem nodup_foldl_guardInsert {α : Type} (pass : String × String → Bool)
    (f : String × String → α) :
    ∀ (l : List (String × String)) (d0 : List (String × α)), (dkeys d0).Nodup →
      (dkeys (l.foldl (fun d x => if pass x then dictInsert d x.1 (f x) else d) d0)).Nodup := by
  intro l
  induction l with
  | nil => intro d0 h; exact h
  | cons x xs ih =>
    intro d0 h
    rw [List.foldl_cons]
    by_cases hp : pass x = true
    · rw [if_pos hp]
      exact ih _ (nodup_dictInsert h _ _)
    · rw [if_neg hp]
      exact ih _ h

theorem applyHeaderOverride_empty {p : Provider} {ov : Override}
    {hoSets : List (String × List (String × String))}
    (h : effHOHeaders p ov hoSets = []) (hs : List (String × String)) :
    applyHeaderOverride p ov hoSets hs = hs := by
  rw [applyHeaderOverride, h]
  simp

theorem mem_applyHeaderOverride {p : Provider} {ov : Override}
    {hoSets : List (String × List (String × String))} {hs : List (String × String)}
    {kv : String × String} (h : kv ∈ applyHeaderOverride p ov hoSets hs) :
    kv ∈ hs ∨ kv ∈ effHOHeaders p ov hoSets := by
  rw [applyHeaderOverride] at h
  split at h
  · rcases mem_foldl_insert _ _ _ h with h1 | h1
    · exact Or.inl (List.mem_of_mem_filter (List.mem_of_mem_filter h1))
    · exact Or.inr h1
  · exact Or.inl h

/-- The passthrough value substitution is idempotent: once a value has been
replaced by the provider token, re-applying the substitution leaves it fixed. -/
theorem substAuthValue_idem (apikey token v : String) :
    substAuthValue apikey token (substAuthValue apikey token v) =
      substAuthValue apikey token v := by
  by_cases h : (apikey != "" && containsSubstr v apikey) = true
  · have h1 : substAuthValue apikey token v = token := by rw [substAuthValue, if_pos h]
    rw [h1, substAuthValue]
    split <;> rfl
  · have h1 : substAuthValue apikey token v = v := by rw [substAuthValue, if_neg h]
    rw [h1, h1]

theorem mem_passthroughBase {apikey ptoken : String} {ch : List (String × String)}
    {kv : String × String} (h : kv ∈ passthroughBase apikey ptoken ch) :
    HOP_HEADERS.contains (sLower kv.1) = false := by
  rcases mem_foldl_guardInsert (fun x => !HOP_HEADERS.contains (sLower x.1))
      (fun x => substAuthValue apikey ptoken x.2) ch [] kv h with h1 | ⟨x, _, hpass, heq⟩
  · cases h1
  · have : kv.1 = x.1 := by rw [heq]
    rw [this]
    simpa using hpass

theorem mem_overrideBase {ch : List (String × String)} {kv : String × String}
    (h : kv ∈ overrideBase ch) :
    HOP_HEADERS.contains (sLower kv.1) = false ∧
      AUTH_HEADERS.contains (sLower kv.1) = false := by
  rcases mem_foldl_guardInsert
      (fun x => !HOP_HEADERS.contains (sLower x.1) && !AUTH_HEADERS.contains (sLower x.1))
      (fun x => x.2) ch [] kv h with h1 | ⟨x, _, hpass, heq⟩
  · cases h1
  · have : kv.1 = x.1 := by rw [heq]
    rw [this]
    constructor
    · have := (Bool.and_eq_true _ _).mp hpass
      simpa using this.1
    · have := (Bool.and_eq_true _ _).mp hpass
      simpa using this.2

theorem nodup_overrideBase (ch : List (String × String)) :
    (dkeys (overrideBase ch)).Nodup :=
  nodup_foldl_guardInsert
    (fun x => !HOP_HEADERS.contains (sLower x.1) && !AUTH_HEADERS.contains (sLower x.1))
    (fun x => x.2) ch [] (by simp [dkeys])

theorem getErrorCount_insert (s : ProxyState) (name : String) (c : Nat) :
    getErrorCount { s with errorCounts := dictInsert s.errorCounts name c } name = c := by
  simp [getErrorCount, find?_dictInsert]

/-- The `try` body of `fetch_models` always produces either a non-empty model
list with no error or no list with a reason. -/
theorem fetchRespond_shape (outcome : FetchOutcome) :
    (∃ ms, fetchRespond outcome = (some ms, none) ∧ ms ≠ []) ∨
    (∃ e, fetchRespond outcome = (none, some e)) := by
  cases outcome with
  | ok data =>
    rw [fetchRespond]
    cases h : extractModels data with
    | error e => exact Or.inr ⟨e, rfl⟩
    | ok ms =>
      by_cases hm : ms.isEmpty
      · exact Or.inr ⟨"empty model list", by simp [hm]⟩
      · refine Or.inl ⟨ms, by simp [hm], ?_⟩
        intro hnil
        rw [hnil] at hm
        exact hm rfl
  | jsonErr m => exact Or.inr ⟨m, rfl⟩
  | httpErr m => exact Or.inr ⟨m, rfl⟩
  | netErr m => exact Or.inr ⟨m, rfl⟩

/-! ### Sample states for witnesses and counterexamples -/

/-- A provider shaped like the spec scenario provider. -/
def provA : Provider :=
  { name := "A", api_base_url := "https://a.test/v1/messages", token := "tok" }

/-- A configuration with one provider, threshold 3 and a client API key. -/
def cfgA : Config :=
  { providers := [provA], errorThreshold := 3, apikey := "secret" }

/-- A running state for `cfgA` with a fresh persisted state. -/
def sampleState : ProxyState := initState cfgA {}

/-- `sampleState` after two consecutive upstream errors for provider A. -/
def stateWithErrors : ProxyState := { sampleState with errorCounts := [("A", 2)] }

/-- A running state whose provider list is empty (no provider selectable). -/
def emptyState : ProxyState := initState { providers := [], apikey := "secret" } {}

/-! ### Claim theorems -/

/-- C5: `get_selected_provider` returns none whenever `selection_required` is
set, even if a provider name is stored; otherwise it returns the provider whose
name equals the stored selection if one exists in the current list, else the
first provider in list order (`head?`), which is none exactly when the list is
empty. -/
theorem c5_selected (s : ProxyState) :
    (s.pstate.selection_required = true → get_selected_provider s = none) ∧
    (s.pstate.selection_required = false → s.pstate.selected_provider ≠ "" →
      ∀ p, s.runtimeProviders.find? (fun q => q.name == s.pstate.selected_provider) = some p →
        get_selected_provider s = some p) ∧
    (s.pstate.selection_required = false →
      (s.pstate.selected_provider = "" ∨
        s.runtimeProviders.find? (fun q => q.name == s.pstate.selected_provider) = none) →
      get_selected_provider s = s.runtimeProviders.head?) := by
  refine ⟨?_, ?_, ?_⟩
  · intro hreq
    rw [get_selected_provider, if_pos (by simp [hreq])]
  · intro hreq hsel p hfind
    rw [get_selected_provider, if_neg (by simp [hreq])]
    have hselb : (s.pstate.selected_provider != "") = true := by simpa using hsel
    simp only [hselb, if_true, hfind]
  · intro hreq hcase
    rw [get_selected_provider, if_neg (by simp [hreq])]
    rcases hcase with hsel | hfind
    · simp [hsel]
    · by_cases hselb : (s.pstate.selected_provider != "") = true
      · simp only [hselb, if_true, hfind]
      · simp only [Bool.not_eq_true] at hselb
        simp [hselb]

/-- C5 witness: in `sampleState` nothing is selected by name, the selection
requirement is off, and the selection falls back to the first provider. -/
theorem c5_selected_witness :
    sampleState.pstate.selection_required = false ∧
    get_selected_provider sampleState = some provA :=
  ⟨rfl, (c5_selected sampleState).2.2 rfl (Or.inl rfl)⟩

/-- C6: `set_selected_provider` fails and changes nothing for a name not in the
runtime provider list; for a present name it succeeds, stores the name, clears
`selection_required`, persists, and leaves every other registry field
unchanged. -/
theorem c6_select (s : ProxyState) (name : String) :
    (s.runtimeProviders.any (fun p => p.name == name) = false →
      set_selected_provider s name = (s, false)) ∧
    (s.runtimeProviders.any (fun p => p.name == name) = true →
      (set_selected_provider s name).2 = true ∧
      (set_selected_provider s name).1.pstate.selected_provider = name ∧
      (set_selected_provider s name).1.pstate.selection_required = false ∧
      (set_selected_provider s name).1.persisted =
        some (set_selected_provider s name).1.pstate ∧
      (set_selected_provider s name).1.runtimeProviders = s.runtimeProviders ∧
      (set_selected_provider s name).1.config = s.config ∧
      (set_selected_provider s name).1.errorCounts = s.errorCounts ∧
      (set_selected_provider s name).1.errorThreshold = s.errorThreshold ∧
      (set_selected_provider s name).1.pstate.global_override =
        s.pstate.global_override) := by
  constructor
  · intro h
    rw [set_selected_provider, if_neg (by simp [h])]
  · intro h
    rw [set_selected_provider, if_pos h]
    exact ⟨rfl, rfl, rfl, rfl, rfl, rfl, rfl, rfl, rfl⟩

/-- C6 witness: selecting the existing provider A in `sampleState` succeeds and
persists; selecting an unknown name fails and leaves the state untouched. -/
theorem c6_select_witness :
    (sampleState.runtimeProviders.any (fun p => p.name == "A") = true ∧
      (set_selected_provider sampleState "A").2 = true ∧
      (set_selected_provider sampleState "A").1.pstate.selected_provider = "A") ∧
    (sampleState.runtimeProviders.any (fun p => p.name == "B") = false ∧
      set_selected_provider sampleState "B" = (sampleState, false)) :=
  ⟨⟨rfl, ((c6_select sampleState "A").2 rfl).1, ((c6_select sampleState "A").2 rfl).2.1⟩,
   ⟨rfl, (c6_select sampleState "B").1 rfl⟩⟩

/-- C7: `build_body` returns the client body unchanged whenever no injection
map is configured (`resolve_inject` empty: no named request_override resolves
to a non-empty set and no inline request_inject is given) or whenever the body
is not a parsed JSON object (every such body makes the injection code raise and
fall back to the original bytes, so a parse failure never aborts the request). -/
theorem c7_body (ov : Override) (reqOv : List (String × List (String × JVal)))
    (b : ClientBody) :
    (resolve_inject ov reqOv = [] → build_body ov reqOv b = b) ∧
    ((∀ fs, b ≠ ClientBody.json (JVal.obj fs)) → build_body ov reqOv b = b) := by
  constructor
  · intro h
    simp [build_body, h]
  · intro h
    simp only [build_body]
    split
    · rfl
    · cases b with
      | raw s => rfl
      | json v =>
        cases v with
        | obj fs => exact absurd rfl (h fs)
        | str s => rfl
        | num n => rfl
        | bool bb => rfl
        | null => rfl
        | arr xs => rfl

/-- C7 witness: with no injection configured a raw body passes through, and
with an inline injection configured an unparseable body still passes through. -/
theorem c7_body_witness :
    (resolve_inject {} [] = [] ∧
      build_body {} [] (ClientBody.raw "not json") = ClientBody.raw "not json") ∧
    (resolve_inject { request_inject := [("system", JVal.str "s")] } [] ≠ [] ∧
      build_body { request_inject := [("system", JVal.str "s")] } []
        (ClientBody.raw "oops") = ClientBody.raw "oops") :=
  ⟨⟨rfl, (c7_body {} [] (ClientBody.raw "not json")).1 rfl⟩,
   ⟨by simp [resolve_inject, dictFind],
    (c7_body { request_inject := [("system", JVal.str "s")] } []
      (ClientBody.raw "oops")).2 (fun fs h => by cases h)⟩⟩

/-- C9: `reload_config` leaves the per-provider error counters, the captured
error threshold (as reported by `get_error_threshold`), the shared global
override and the `selection_required` flag unchanged, for every read outcome -
in particular for a successfully parsed configuration whose `ERROR_THRESHOLD`
differs, since the threshold is captured once at construction. -/
theorem c9_reload_frame (s : ProxyState) (r : ReloadOutcome) :
    (reload_config s r).1.errorCounts = s.errorCounts ∧
    (reload_config s r).1.errorThreshold = s.errorThreshold ∧
    get_error_threshold (reload_config s r).1 = get_error_threshold s ∧
    (reload_config s r).1.pstate.global_override = s.pstate.global_override ∧
    (reload_config s r).1.pstate.selection_required = s.pstate.selection_required := by
  cases r with
  | readOSError => exact ⟨rfl, rfl, rfl, rfl, rfl⟩
  | readParseError => exact ⟨rfl, rfl, rfl, rfl, rfl⟩
  | readOk cfg =>
    simp only [reload_config]
    split
    · exact ⟨rfl, rfl, rfl, rfl, rfl⟩
    · split
      · exact ⟨rfl, rfl, rfl, rfl, rfl⟩
      · exact ⟨rfl, rfl, rfl, rfl, rfl⟩

/-- C10: a request to the messages endpoint with no selected provider is
answered 503 with a structured error body before any credential check; a 401
is produced only when a provider is selected and the credential check fails. -/
theorem c10_dispatch (s : ProxyState) (ch qp : List (String × String)) :
    (get_selected_provider s = none →
      proxy_messages s ch qp = ProxyOutcome.jsonErr 503 "no_provider_selected") ∧
    (∀ e, proxy_messages s ch qp = ProxyOutcome.jsonErr 401 e →
      (∃ p, get_selected_provider s = some p) ∧
      is_authorized s.config.apikey ch qp = false ∧ e = "unauthorized") := by
  constructor
  · intro h
    rw [proxy_messages, h]
  · intro e he
    cases h : get_selected_provider s with
    | none =>
      have hx : proxy_messages s ch qp = ProxyOutcome.jsonErr 503 "no_provider_selected" := by
        rw [proxy_messages, h]
      rw [hx] at he
      have h2 : (503 : Nat) = 401 := by injection he
      exact absurd h2 (by decide)
    | some p =>
      by_cases hauth : is_authorized s.config.apikey ch qp = true
      · have hx : proxy_messages s ch qp = ProxyOutcome.forward p s.pstate.global_override := by
          rw [proxy_messages, h]
          simp [hauth]
        rw [hx] at he
        cases he
      · simp only [Bool.not_eq_true] at hauth
        have hx : proxy_messages s ch qp = ProxyOutcome.jsonErr 401 "unauthorized" := by
          rw [proxy_messages, h]
          simp [hauth]
        rw [hx] at he
        have h2 : "unauthorized" = e := by injection he
        exact ⟨⟨p, rfl⟩, hauth, h2.symm⟩

/-- C10 witness: with an empty provider list, a configured API key, and a
request carrying wrong credentials, the response is the 503 selection error,
not a 401. -/
theorem c10_dispatch_witness :
    get_selected_provider emptyState = none ∧
    emptyState.config.apikey = "secret" ∧
    proxy_messages emptyState [("x-api-key", "wrong")] [] =
      ProxyOutcome.jsonErr 503 "no_provider_selected" :=
  ⟨rfl, rfl, (c10_dispatch emptyState [("x-api-key", "wrong")] []).1 rfl⟩

/-- C1 counterexample: the relay tests `status_code != 200`, not "non-2xx".
A 204 upstream response - a 2xx status, which the claim says resets the
counter to zero and is forwarded - instead increments provider A's counter to
1 and, 1 being below the threshold 3, drops the connection with nothing sent
to the client. -/
theorem c1_counterexample :
    (stream_response 204 [] ["data"] "A" sampleState).1 = StreamResult.dropped ∧
    getErrorCount (stream_response 204 [] ["data"] "A" sampleState).2 "A" = 1 ∧
    sampleState.errorThreshold = 3 :=
  ⟨rfl, rfl, rfl⟩

/-- C1 (amended): replacing "non-2xx" by "status other than exactly 200" and
"2xx" by "status exactly 200": each upstream response with status other than
200 increments that provider's consecutive-error counter; if the incremented
count is strictly below the threshold nothing is sent to the client; if it is
at or above the threshold the status, non-hop-by-hop headers and body are
relayed; and every upstream 200 resets the counter to zero before forwarding. -/
theorem c1_error_policy (s : ProxyState) (name : String) (status : Nat)
    (respHeaders : List (String × String)) (chunks : List String) :
    (status = 200 →
      stream_response status respHeaders chunks name s =
        (StreamResult.relayed 200 (stripHop respHeaders)
          (chunks.filter (fun c => c != "")), reset_error_count s name) ∧
      getErrorCount (stream_response status respHeaders chunks name s).2 name = 0) ∧
    (status ≠ 200 →
      getErrorCount (stream_response status respHeaders chunks name s).2 name =
        getErrorCount s name + 1 ∧
      (getErrorCount s name + 1 < s.errorThreshold →
        (stream_response status respHeaders chunks name s).1 = StreamResult.dropped) ∧
      (s.errorThreshold ≤ getErrorCount s name + 1 →
        (stream_response status respHeaders chunks name s).1 =
          StreamResult.relayed status (stripHop respHeaders)
            (chunks.filter (fun c => c != "")))) := by
  constructor
  · intro h200
    subst h200
    constructor
    · rw [stream_response, if_neg (by simp)]
    · rw [stream_response, if_neg (by simp)]
      exact getErrorCount_insert s name 0
  · intro hne
    have hcond : (status != 200) = true := by simpa using hne
    rw [stream_response, if_pos hcond]
    simp only [increment_error_count]
    refine ⟨?_, ?_, ?_⟩
    · split
      · exact getErrorCount_insert s name _
      · exact getErrorCount_insert s name _
    · intro hlt
      rw [if_pos hlt]
    · intro hge
      rw [if_neg (by omega)]

/-- C1 witness for the amended policy: in a state where provider A already has
two consecutive errors and the threshold is 3, a third upstream 500 reaches the
threshold and is relayed with its status, while the counter reads 3. -/
theorem c1_error_policy_witness :
    (500 ≠ 200) ∧
    (stream_response 500 [] ["body"] "A" stateWithErrors).1 =
      StreamResult.relayed 500 [] ["body"] ∧
    getErrorCount (stream_response 500 [] ["body"] "A" stateWithErrors).2 "A" = 3 :=
  ⟨by decide,
   ((c1_error_policy stateWithErrors "A" 500 [] ["body"]).2 (by decide)).2.2 (by decide),
   ((c1_error_policy stateWithErrors "A" 500 [] ["body"]).2 (by decide)).1⟩

/-- C4 counterexample: the `try` in `reload_config` only catches `OSError`.
A configuration source that opens but does not parse raises
`json.JSONDecodeError` out of the operation (the returned flag records the
escaped exception), contradicting the claim that no failure to read the
configuration source ever raises out of reload. Prior state is nevertheless
left unchanged. -/
theorem c4_counterexample :
    reload_config sampleState ReloadOutcome.readParseError = (sampleState, true) :=
  rfl

/-- C4 (amended): restricted to operating-system read failures, reload leaves
all prior state unchanged and does not raise (an unparseable source instead
raises out of reload, also leaving state unchanged); on a successful re-read it
replaces the config and provider list, keeps the selection when its name still
exists, and otherwise selects and persists the first provider of the new list. -/
theorem c4_reload (s : ProxyState) :
    (reload_config s ReloadOutcome.readOSError = (s, false)) ∧
    (reload_config s ReloadOutcome.readParseError = (s, true)) ∧
    (∀ cfg : Config,
      (reload_config s (ReloadOutcome.readOk cfg)).2 = false ∧
      (reload_config s (ReloadOutcome.readOk cfg)).1.runtimeProviders = cfg.providers ∧
      (reload_config s (ReloadOutcome.readOk cfg)).1.config = cfg ∧
      (s.pstate.selected_provider ≠ "" →
        cfg.providers.any (fun p => p.name == s.pstate.selected_provider) = true →
        (reload_config s (ReloadOutcome.readOk cfg)).1.pstate = s.pstate ∧
        (reload_config s (ReloadOutcome.readOk cfg)).1.persisted = s.persisted) ∧
      (∀ p ps, cfg.providers = p :: ps →
        (s.pstate.selected_provider = "" ∨
          cfg.providers.any (fun q => q.name == s.pstate.selected_provider) = false) →
        (reload_config s (ReloadOutcome.readOk cfg)).1.pstate.selected_provider = p.name ∧
        (reload_config s (ReloadOutcome.readOk cfg)).1.persisted =
          some (reload_config s (ReloadOutcome.readOk cfg)).1.pstate)) := by
  refine ⟨rfl, rfl, fun cfg => ?_⟩
  by_cases hkeep : (s.pstate.selected_provider != "" &&
      cfg.providers.any (fun p => p.name == s.pstate.selected_provider)) = true
  · have hx : reload_config s (ReloadOutcome.readOk cfg) =
        ({ s with config := cfg, runtimeProviders := cfg.providers }, false) := by
      rw [reload_config, if_pos hkeep]
    refine ⟨by rw [hx], by rw [hx], by rw [hx], fun _ _ => ⟨by rw [hx], by rw [hx]⟩,
      fun p ps hcons hcase => ?_⟩
    exfalso
    have := (Bool.and_eq_true _ _).mp hkeep
    rcases hcase with h1 | h1
    · have h2 : (s.pstate.selected_provider != "") = true := this.1
      rw [h1] at h2
      exact absurd h2 (by decide)
    · rw [h1] at this
      exact absurd this.2 (by decide)
  · rw [Bool.not_eq_true] at hkeep
    refine ⟨?_, ?_, ?_, ?_, ?_⟩
    · rw [reload_config, if_neg (by simp [hkeep])]
      cases hl : cfg.providers with
      | nil => rfl
      | cons p ps => rfl
    · rw [reload_config, if_neg (by simp [hkeep])]
      cases hl : cfg.providers with
      | nil => simp [hl]
      | cons p ps => simp [save_state, hl]
    · rw [reload_config, if_neg (by simp [hkeep])]
      cases hl : cfg.providers with
      | nil => simp [hl]
      | cons p ps => simp [save_state, hl]
    · intro hsel hany
      exfalso
      have h1 : (s.pstate.selected_provider != "") = true := by simpa using hsel
      rw [Bool.and_eq_false_iff] at hkeep
      rcases hkeep with h2 | h2
      · rw [h1] at h2
        exact absurd h2 (by decide)
      · rw [hany] at h2
        exact absurd h2 (by decide)
    · intro p ps hcons hcase
      have hx : reload_config s (ReloadOutcome.readOk cfg) =
          (save_state
            { s with
              config := cfg
              runtimeProviders := cfg.providers
              pstate := { s.pstate with selected_provider := p.name } }, false) := by
        rw [reload_config, if_neg (by simp [hkeep])]
        simp [hcons]
      exact ⟨by rw [hx]; rfl, by rw [hx]; rfl⟩

/-- C4 witness for the amended claim: reloading `sampleState` (which has no
stored selection) with a parsed config whose only provider is named B selects
and persists B, and reports no escaped exception. -/
theorem c4_reload_witness :
    (reload_config sampleState (ReloadOutcome.readOk
      { providers := [{ name := "B" }] })).2 = false ∧
    (reload_config sampleState (ReloadOutcome.readOk
      { providers := [{ name := "B" }] })).1.pstate.selected_provider = "B" :=
  ⟨((c4_reload sampleState).2.2 { providers := [{ name := "B" }] }).1,
   (((c4_reload sampleState).2.2 { providers := [{ name := "B" }] }).2.2.2.2
      { name := "B" } [] rfl (Or.inl rfl)).1⟩

/-- C2 counterexample: auth-header uniqueness fails case-insensitively. With
configured header name `X-Auth`, a client header spelled `x-auth` survives the
override-mode filter (its lowercase is not among the stripped auth headers) and
the injected `X-Auth` is appended alongside, so the output carries two headers
whose names agree case-insensitively with the configured auth header name. -/
theorem c2_counterexample :
    build_headers ({ token_in := "header", token_header := "X-Auth", token := "tok" } :
        Provider) {} [("x-auth", "evil")] [] "" =
      .ok [("x-auth", "evil"), ("X-Auth", "Bearer tok")] ∧
    sLower "x-auth" = sLower "X-Auth" ∧
    ([("x-auth", "evil"), ("X-Auth", "Bearer tok")].filter
      (fun kv => sLower kv.1 == "x-auth")).length = 2 :=
  ⟨rfl, rfl, rfl⟩

/-- C2 (amended): in override mode with token placement header/both, the
produced headers contain exactly one header whose name equals the configured
header name compared case-sensitively, carrying the formatted credential, when
no header-override set applies (a client header matching the configured name
only in a different spelling may survive alongside); and in all cases every
output header whose lowercased name is authorization, x-api-key or
anthropic-auth-token is either the injected credential header or a verbatim
entry of the applied header-override set - never a client header. -/
theorem c2_override_auth (p : Provider) (ov : Override) (ch : List (String × String))
    (hoSets : List (String × List (String × String))) (apikey fv : String)
    (hmode : effTokenIn p ov = "header" ∨ effTokenIn p ov = "both")
    (hfmt : pyFormat (effTokenHeaderFormat p ov) (effToken p) = some fv) :
    ∃ hs, build_headers p ov ch hoSets apikey = .ok hs ∧
      (∀ kv, kv ∈ hs → AUTH_HEADERS.contains (sLower kv.1) = true →
        kv = (effTokenHeader p ov, fv) ∨ kv ∈ effHOHeaders p ov hoSets) ∧
      (effHOHeaders p ov hoSets = [] →
        hs.filter (fun kv => kv.1 == effTokenHeader p ov) =
          [(effTokenHeader p ov, fv)]) := by
  have htin : (effTokenIn p ov == "") = false := by
    rcases hmode with h | h <;> rw [h] <;> rfl
  have htin2 : (effTokenIn p ov == "header" || effTokenIn p ov == "both") = true := by
    rcases hmode with h | h <;> rw [h] <;> rfl
  have heq : build_headers p ov ch hoSets apikey =
      .ok (applyHeaderOverride p ov hoSets
        (dictInsert (overrideBase ch) (effTokenHeader p ov) fv)) := by
    simp only [build_headers]
    rw [if_neg (by simp [htin]), if_pos htin2, hfmt]
  refine ⟨_, heq, ?_, ?_⟩
  · intro kv hkv hauth
    rcases mem_applyHeaderOverride hkv with h1 | h1
    · rcases mem_dictInsert h1 with h2 | h2
      · exact Or.inl h2
      · have hfalse := (mem_overrideBase h2).2
        rw [hfalse] at hauth
        exact absurd hauth (by decide)
    · exact Or.inr h1
  · intro hho
    rw [applyHeaderOverride_empty hho]
    exact filter_dictInsert_self (nodup_overrideBase ch) _ fv

/-- The provider used by the C2 witness. -/
def pW : Provider := { token_in := "header", token := "tok" }

/-- The client header set used by the C2 witness. -/
def chW : List (String × String) := [("X-Api-Key", "secret"), ("Accept", "json")]

/-- C2 witness: at a concrete provider (header placement, default header name
and format) and a client that sends its own `X-Api-Key`, the amended theorem
applies with the formatted credential `Bearer tok`. -/
theorem c2_override_auth_witness :
    (effTokenIn pW ({} : Override) = "header" ∨ effTokenIn pW ({} : Override) = "both") ∧
    pyFormat (effTokenHeaderFormat pW {}) (effToken pW) = some "Bearer tok" ∧
    (∃ hs, build_headers pW {} chW [] "" = .ok hs ∧
      (∀ kv, kv ∈ hs → AUTH_HEADERS.contains (sLower kv.1) = true →
        kv = (effTokenHeader pW {}, "Bearer tok") ∨ kv ∈ effHOHeaders pW {} []) ∧
      (effHOHeaders pW {} [] = [] →
        hs.filter (fun kv => kv.1 == effTokenHeader pW {}) =
          [(effTokenHeader pW {}, "Bearer tok")])) :=
  ⟨Or.inl rfl, rfl, c2_override_auth pW {} chW [] "" "Bearer tok" (Or.inl rfl) rfl⟩

/-- C3 counterexample: hop-by-hop absence fails once a configured
header-override set itself names a hop-by-hop header. With `HeaderOverrides`
mapping `ov` to a `Connection` entry and a provider using it, passthrough
mode emits that hop-by-hop header verbatim. -/
theorem c3_counterexample :
    build_headers ({ header_override := "ov" } : Provider) {} []
      [("ov", [("Connection", "keep-alive")])] "" =
      .ok [("Connection", "keep-alive")] ∧
    HOP_HEADERS.contains (sLower "Connection") = true :=
  ⟨rfl, rfl⟩

/-- Idempotence of the passthrough substitution lifted over a header or query
pair list. -/
theorem map_subst_idem (apikey ptoken : String) (l : List (String × String)) :
    (l.map (fun kv => (kv.1, substAuthValue apikey ptoken kv.2))).map
      (fun kv => (kv.1, substAuthValue apikey ptoken kv.2)) =
    l.map (fun kv => (kv.1, substAuthValue apikey ptoken kv.2)) := by
  induction l with
  | nil => rfl
  | cons x xs ih => simp [ih, substAuthValue_idem]

/-- In passthrough mode the outbound extra query is exactly the client query
with the key-for-token substitution applied to each value. -/
theorem build_url_query_passthrough (p : Provider) (ov : Override)
    (q : List (String × String)) (apikey tokenParamCfg : String)
    (hmode : effTokenIn p ov = "") :
    build_url_query p ov q apikey tokenParamCfg =
      q.map (fun kv => (kv.1, substAuthValue apikey (effToken p) kv.2)) := by
  simp only [build_url_query]
  rw [if_pos (by rw [hmode]; rfl)]

/-- C3 (amended): in passthrough mode the client-key-for-provider-token value
substitution is idempotent, both pointwise and over whole header/query pair
lists (re-applying the outbound query construction yields the same query); and
every outbound header either has a non-hop-by-hop name or is a verbatim entry
of an applied header-override set - client-supplied hop-by-hop headers are
always stripped. -/
theorem c3_passthrough (p : Provider) (ov : Override)
    (ch clientQuery : List (String × String))
    (hoSets : List (String × List (String × String)))
    (apikey tokenParamCfg : String)
    (hmode : effTokenIn p ov = "") :
    (∀ v, substAuthValue apikey (effToken p) (substAuthValue apikey (effToken p) v) =
      substAuthValue apikey (effToken p) v) ∧
    (build_url_query p ov (build_url_query p ov clientQuery apikey tokenParamCfg)
        apikey tokenParamCfg =
      build_url_query p ov clientQuery apikey tokenParamCfg) ∧
    ((ch.map (fun kv => (kv.1, substAuthValue apikey (effToken p) kv.2))).map
        (fun kv => (kv.1, substAuthValue apikey (effToken p) kv.2)) =
      ch.map (fun kv => (kv.1, substAuthValue apikey (effToken p) kv.2))) ∧
    (∃ hs, build_headers p ov ch hoSets apikey = .ok hs ∧
      ∀ kv, kv ∈ hs → HOP_HEADERS.contains (sLower kv.1) = false ∨
        kv ∈ effHOHeaders p ov hoSets) := by
  refine ⟨substAuthValue_idem apikey (effToken p), ?_, map_subst_idem apikey (effToken p) ch, ?_⟩
  · rw [build_url_query_passthrough p ov _ apikey tokenParamCfg hmode,
      build_url_query_passthrough p ov _ apikey tokenParamCfg hmode,
      map_subst_idem]
  · refine ⟨applyHeaderOverride p ov hoSets (passthroughBase apikey (effToken p) ch),
      ?_, ?_⟩
    · simp only [build_headers]
      rw [if_pos (by rw [hmode]; rfl)]
    · intro kv hkv
      rcases mem_applyHeaderOverride hkv with h1 | h1
      · exact Or.inl (mem_passthroughBase h1)
      · exact Or.inr h1

/-- The provider used by the C3 witness (no `token_in`: passthrough mode). -/
def pP : Provider := { token := "ptok", api_base_url := "https://a/v1/messages" }

/-- C3 witness: at a passthrough provider, a client query whose value embeds
the key `secret`, and a client sending both an auth header and a hop-by-hop
header, the amended theorem applies. -/
theorem c3_passthrough_witness :
    effTokenIn pP ({} : Override) = "" ∧
    build_url_query pP {}
        (build_url_query pP {} [("q", "a secret b")] "secret" "token") "secret" "token" =
      build_url_query pP {} [("q", "a secret b")] "secret" "token" ∧
    (∃ hs, build_headers pP {} [("X-Api-Key", "secret"), ("Connection", "x")] [] "secret" =
        .ok hs ∧
      ∀ kv, kv ∈ hs → HOP_HEADERS.contains (sLower kv.1) = false ∨
        kv ∈ effHOHeaders pP {} []) :=
  ⟨rfl,
   (c3_passthrough pP {} [("X-Api-Key", "secret"), ("Connection", "x")]
     [("q", "a secret b")] [] "secret" "token" rfl).2.1,
   (c3_passthrough pP {} [("X-Api-Key", "secret"), ("Connection", "x")]
     [("q", "a secret b")] [] "secret" "token" rfl).2.2.2⟩

/-- The provider used by the C8 counterexample: its header-format template
contains a replacement field other than the token placeholder, which
`str.format` rejects with a KeyError. -/
def pBad : Provider :=
  { api_base_url := "https://x/v1/messages", token := "t",
    token_header_format := "x" ++ String.mk [obr] ++ "model" ++ String.mk [cbr] }

/-- C8 counterexample: the header construction of `fetch_models` runs before
its `try`, so a provider profile whose header-format template fails to
instantiate raises out of the discovery boundary instead of returning a
`(none, reason)` pair. -/
theorem c8_counterexample :
    isExn (fetch_models pBad "token" {} (FetchOutcome.ok JVal.null)) = true :=
  rfl

/-- Exhaustive description of `fetch_models` results: the missing-base-url
pair, the `try` body result, or an escaped formatting exception. -/
theorem fetch_models_cases (p : Provider) (tp : String) (ov : Override)
    (oc : FetchOutcome) :
    fetch_models p tp ov oc = .ok (none, some "missing api_base_url") ∨
    fetch_models p tp ov oc = .ok (fetchRespond oc) ∨
    (fetch_models p tp ov oc = .error () ∧
      pyFormat (effTokenHeaderFormat p ov) (effToken p) = none) := by
  by_cases hbase : (p.api_base_url == "") = true
  · left
    rw [fetch_models, if_pos hbase]
  · simp only [fetch_models]
    rw [if_neg hbase]
    split
    · cases hf : pyFormat (effTokenHeaderFormat p ov) (effToken p) with
      | none => exact Or.inr (Or.inr ⟨rfl, rfl⟩)
      | some fv => exact Or.inr (Or.inl rfl)
    · exact Or.inr (Or.inl rfl)

/-- C8 (amended): whenever `fetch_models` does not raise, it returns either a
non-empty model list with no error or no list with an error reason - in
particular `(none, reason)` for a missing base URL, an empty upstream list, an
unreachable upstream and every in-`try` failure; it raises only when the
header-format template fails to instantiate (that formatting runs before the
`try`). -/
theorem c8_fetch (p : Provider) (tokenParam : String) (ov : Override)
    (outcome : FetchOutcome) :
    (∀ r, fetch_models p tokenParam ov outcome = .ok r →
      (∃ ms, r = (some ms, none) ∧ ms ≠ []) ∨ (∃ e, r = (none, some e))) ∧
    (fetch_models p tokenParam ov outcome = .error () →
      pyFormat (effTokenHeaderFormat p ov) (effToken p) = none) := by
  constructor
  · intro r hr
    rcases fetch_models_cases p tokenParam ov outcome with h | h | ⟨h, _⟩
    · rw [h] at hr
      injection hr with h2
      exact Or.inr ⟨"missing api_base_url", h2.symm⟩
    · rw [h] at hr
      injection hr with h2
      rcases fetchRespond_shape outcome with ⟨ms, hm, hne⟩ | ⟨e, hee⟩
      · exact Or.inl ⟨ms, by rw [← h2, hm], hne⟩
      · exact Or.inr ⟨e, by rw [← h2, hee]⟩
    · rw [h] at hr
      exact Except.noConfusion hr
  · intro he
    rcases fetch_models_cases p tokenParam ov outcome with h | h | ⟨_, h2⟩
    · rw [h] at he
      exact Except.noConfusion he
    · rw [h] at he
      exact Except.noConfusion he
    · exact h2

/-- C8 witness: a provider with a well-formed default template and an
unreachable upstream yields the `(none, reason)` pair through the amended
theorem. -/
theorem c8_fetch_witness :
    fetch_models ({ api_base_url := "https://h/v1/messages" } : Provider) "token" {}
        (FetchOutcome.netErr "connection refused") = .ok (none, some "connection refused") ∧
    ((∃ ms, ((none : Option (List JVal)), some "connection refused") = (some ms, none) ∧
        ms ≠ []) ∨
      (∃ e, ((none : Option (List JVal)), some "connection refused") = (none, some e))) :=
  ⟨rfl,
   (c8_fetch ({ api_base_url := "https://h/v1/messages" } : Provider) "token" {}
     (FetchOutcome.netErr "connection refused")).1 _ rfl⟩

end Ccproxy
